import Mathlib

/-!
Shallow embedding of the egg-report bot core (`src/bot.py`).

The module-level state of the bot consists of `group_data` (a dict mapping
group name to a dict mapping user id to `{'total_eggs': ..., 'logs': [...]}`),
a global running counter `total_eggs`, and `last_reset_date` (a `'%Y-%m'`
string).  Python dicts preserve insertion order, so each dict is embedded as
an association list in insertion order; `user_data` is declared in the source
but never read or written outside the reset, so it is omitted.

Identities (Telegram user ids) are embedded as `Nat`, all date/time strings
as `String` exactly as the source formats and compares them.
-/

namespace EggBot

/-- One log entry: `{'date': date, 'eggs': eggs}` appended in `count_eggs`. -/
structure Entry where
  date : String
  eggs : Nat
deriving Repr, DecidableEq

/-- Per-(group, user) record: `{'total_eggs': 0, 'logs': []}`. -/
structure Account where
  total_eggs : Nat
  logs : List Entry
deriving Repr, DecidableEq

/-- Look up the value bound to `k`, reading the first (and, in every state the
bot builds, only) binding — the embedding of `d[k]` / `k in d` on a dict. -/
def dictLookup {α β : Type} [DecidableEq α] (k : α) : List (α × β) → Option β
  | [] => none
  | (k', v) :: rest => if k' = k then some v else dictLookup k rest

/-- Update the binding of `k` in place, leaving every other binding and the
order untouched — the embedding of `d[k] = f(d[k])`. -/
def updateAssoc {α β : Type} [DecidableEq α] (k : α) (f : β → β) :
    List (α × β) → List (α × β)
  | [] => []
  | (k', v) :: rest =>
      if k' = k then (k', f v) :: rest else (k', v) :: updateAssoc k f rest

/-- `if k not in d: d[k] = v` — appends a fresh binding at the end (dict
insertion order), leaves the dict alone when the key is present. -/
def insertIfAbsent {α β : Type} [DecidableEq α] (k : α) (v : β)
    (l : List (α × β)) : List (α × β) :=
  match dictLookup k l with
  | some _ => l
  | none => l ++ [(k, v)]

/-- The bot's module-level mutable state. -/
structure BotState where
  group_data : List (String × List (Nat × Account))
  total_eggs : Nat
  last_reset_date : String
deriving Repr, DecidableEq

/-- The state right after a reset: `user_data = {}`, `group_data = {}`,
`total_eggs = 0`, `last_reset_date = current_month`. -/
def emptyState (month : String) : BotState :=
  { group_data := [], total_eggs := 0, last_reset_date := month }

/-- `reset_data_if_needed` (bot.py lines 47-55): compare the current
`'%Y-%m'` key against `last_reset_date`, and on any difference clear all
dictionaries and the grand total and adopt the new key. -/
def reset_data_if_needed (current_month : String) (s : BotState) : BotState :=
  if current_month ≠ s.last_reset_date then emptyState current_month else s

/-- `group_choice` (bot.py lines 70-90), state effect on `group_data`:
initialize the group dict if absent, then initialize the user's record within
the group if absent.  (The handler also stores `group` into the session's
`context.user_data['group']`; that session value is threaded into the other
handlers as their `sessionGroup` argument.) -/
def group_choice (group : String) (user_id : Nat) (s : BotState) : BotState :=
  let gd := insertIfAbsent group [] s.group_data
  let gd' := updateAssoc group (insertIfAbsent user_id ⟨0, []⟩) gd
  { s with group_data := gd' }

/-! ## Quantity parser

`egg_pattern = re.compile(r'(\d+)\s*butir', re.IGNORECASE)` used through
`egg_pattern.search(message_text)` followed by `int(match.group(1))`.

`re.search` returns the leftmost match.  At a candidate start the engine
takes the maximal digit run (backtracking inside the run cannot help: a
digit is neither whitespace nor `b`), then maximal whitespace, then the
literal `butir` case-insensitively. -/

/-- Whitespace as matched by `\s` over the inputs in scope (ASCII range). -/
def isWS (c : Char) : Bool :=
  c = ' ' || c = '\t' || c = '\n' || c = '\r' ||
  c = Char.ofNat 11 || c = Char.ofNat 12

/-- Case-insensitive match of the lowercase keyword `kw` against the head of
the text, as `re.IGNORECASE` does for the literal `butir`. -/
def keywordCI : List Char → List Char → Bool
  | [], _ => true
  | _ :: _, [] => false
  | p :: ps, c :: cs => p = c.toLower && keywordCI ps cs

/-- `int(...)` on a digit string. -/
def digitsVal (ds : List Char) : Nat :=
  ds.foldl (fun n c => n * 10 + (c.toNat - '0'.toNat)) 0

/-- Try to match `(\d+)\s*butir` anchored at the head of `s`, returning the
captured group's integer value. -/
def matchHere (s : List Char) : Option Nat :=
  let ds := s.takeWhile Char.isDigit
  if ds.isEmpty then none
  else
    let rest := (s.drop ds.length).dropWhile isWS
    if keywordCI ['b', 'u', 't', 'i', 'r'] rest then some (digitsVal ds)
    else none

/-- Leftmost search: try each start position left to right. -/
def searchFrom : List Char → Option Nat
  | [] => none
  | c :: cs =>
      match matchHere (c :: cs) with
      | some n => some n
      | none => searchFrom cs

/-- `egg_pattern.search(text)` followed by `int(match.group(1))`, as an
optional value. -/
def eggSearch (text : String) : Option Nat :=
  searchFrom text.toList

/-- `s.startswith(p)` on the character sequence of the strings (the
source compares `log['date'].startswith(today)`). -/
def prefixMatch : List Char → List Char → Bool
  | [], _ => true
  | _ :: _, [] => false
  | p :: ps, c :: cs => p = c && prefixMatch ps cs

/-- `s.startswith(p)`. -/
def strStartsWith (s p : String) : Bool :=
  prefixMatch p.toList s.toList

/-! ## Write path: `count_eggs` -/

/-- Outcome of one `count_eggs` call.  Every constructor carries the state
the module globals hold when the handler returns (or, for `keyError`, when
the uncaught exception leaves the handler). -/
inductive RecordResult where
  | noGroup : BotState → RecordResult
  | parseFailed : BotState → RecordResult
  | keyError : BotState → RecordResult
  | ok : Nat → BotState → RecordResult
deriving Repr, DecidableEq

/-- `count_eggs` (bot.py lines 108-133).  `current_month` and `now` are the
wall-clock readings (`'%Y-%m'` and `'%Y-%m-%d %H:%M:%S'`); `sessionGroup` is
the session's `context.user_data.get('group')`.  The source subscripts
`group_data[group][user_id]` directly — a missing key raises `KeyError`
before any mutation, which the embedding reports as `keyError`. -/
def count_eggs (user_id : Nat) (sessionGroup : Option String) (text : String)
    (current_month now : String) (s : BotState) : RecordResult :=
  let s1 := reset_data_if_needed current_month s
  match sessionGroup with
  | none => .noGroup s1
  | some group =>
      match eggSearch text with
      | none => .parseFailed s1
      | some eggs =>
          match dictLookup group s1.group_data with
          | none => .keyError s1
          | some users =>
              match dictLookup user_id users with
              | none => .keyError s1
              | some _ =>
                  let gd := updateAssoc group
                    (updateAssoc user_id (fun a =>
                      { total_eggs := a.total_eggs + eggs,
                        logs := a.logs ++ [⟨now, eggs⟩] })) s1.group_data
                  .ok eggs { group_data := gd,
                             total_eggs := s1.total_eggs + eggs,
                             last_reset_date := s1.last_reset_date }

/-! ## Read path: `report` -/

/-- One rendered report line: sequence number, user id (whose display label
is an external chat lookup), egg count, timestamp. -/
structure ReportLine where
  num : Nat
  uid : Nat
  eggs : Nat
  date : String
deriving Repr, DecidableEq

/-- Outcome of a read handler (`report` / `export`): either the "choose a
group" prompt, an uncaught `KeyError` on `group_data[group]`, or the rendered
value; each carries the post-reset state. -/
inductive ReadResult (α : Type) where
  | noGroup : BotState → ReadResult α
  | keyError : BotState → ReadResult α
  | ok : α → BotState → ReadResult α
deriving Repr, DecidableEq

/-- Inner loop of `report`: `for log in data['logs']`, filtering entries whose
date starts with today's `'%Y-%m-%d'`, appending a numbered line and adding to
the running total. -/
def reportUser (today : String) (uid : Nat) :
    List Entry → List ReportLine × Nat × Nat → List ReportLine × Nat × Nat
  | [], st => st
  | e :: rest, (lines, tot, n) =>
      if strStartsWith e.date today then
        reportUser today uid rest
          (lines ++ [⟨n, uid, e.eggs, e.date⟩], tot + e.eggs, n + 1)
      else
        reportUser today uid rest (lines, tot, n)

/-- Outer loop of `report`: `for user_id, data in group_data[group].items()`. -/
def reportAll (today : String) :
    List (Nat × Account) → List ReportLine × Nat × Nat →
    List ReportLine × Nat × Nat
  | [], st => st
  | (uid, a) :: rest, st => reportAll today rest (reportUser today uid a.logs st)

/-- `report` (bot.py lines 135-157): reset check, group check, then the
two nested loops with `entry_number` starting at 1 and `total_eggs_today`
at 0, ending with the trailing daily total. -/
def report (sessionGroup : Option String) (current_month today : String)
    (s : BotState) : ReadResult (List ReportLine × Nat) :=
  let s1 := reset_data_if_needed current_month s
  match sessionGroup with
  | none => .noGroup s1
  | some group =>
      match dictLookup group s1.group_data with
      | none => .keyError s1
      | some users =>
          let r := reportAll today users ([], 0, 1)
          .ok (r.1, r.2.1) s1

/-! ## Read path: `export` -/

/-- One spreadsheet row: user id (stand-in for the externally looked-up
display name), full timestamp, egg count. -/
abbrev Row := Nat × String × Nat

/-- `log['date'].split(' ')[0]` — the date part of a timestamp. -/
def datePart (ts : String) : String :=
  String.mk (ts.toList.takeWhile (fun c => c ≠ ' '))

/-- Rows contributed by one account, in log order. -/
def accountRows (uid : Nat) (a : Account) : List Row :=
  a.logs.map (fun e => (uid, e.date, e.eggs))

/-- All rows of the selected group, account-major (dict iteration order),
log order within an account — the order the `export` loops visit them. -/
def allRows : List (Nat × Account) → List Row
  | [] => []
  | (uid, a) :: rest => accountRows uid a ++ allRows rest

/-- Add one row under its date: create `datewise_data[date] = []` on first
sight (appending the key in insertion order), then append the row. -/
def addRow (d : String) (r : Row) :
    List (String × List Row) → List (String × List Row)
  | [] => [(d, [r])]
  | (d', rs) :: rest =>
      if d' = d then (d', rs ++ [r]) :: rest else (d', rs) :: addRow d r rest

/-- The `datewise_data` dict built by the organizing loop of `export`. -/
def buildDatewise (rows : List Row) (dw : List (String × List Row)) :
    List (String × List Row) :=
  rows.foldl (fun acc r => addRow (datePart r.2.1) r acc) dw

/-- `df['Butir Telur'].sum()` — the quantity sum of a row set. -/
def rowsSum (rs : List Row) : Nat :=
  (rs.map (fun r => r.2.2)).sum

/-- The workbook `export` produces: one sheet per date (its rows plus the
value of the trailing synthetic "Total" row), the `"Total"` summary sheet
(`daily_totals` plus the value of the trailing "Grand Total" row), and the
`"User Totals"` sheet. -/
structure ExportDoc where
  dateSheets : List (String × List Row × Nat)
  summary : List (String × Nat)
  grandTotal : Nat
  userTotals : List (Nat × Nat)
deriving Repr, DecidableEq

/-- `export` (bot.py lines 159-214): reset check, group check, organize the
selected group's logs by date, then emit per-date sheets in `datewise_data`
iteration order, the summary sheet whose trailing row holds the local
`total_eggs` accumulator (which shadows the global), and the per-user totals
sheet. -/
def exportReport (sessionGroup : Option String) (current_month : String)
    (s : BotState) : ReadResult ExportDoc :=
  let s1 := reset_data_if_needed current_month s
  match sessionGroup with
  | none => .noGroup s1
  | some group =>
      match dictLookup group s1.group_data with
      | none => .keyError s1
      | some users =>
          let dw := buildDatewise (allRows users) []
          .ok { dateSheets := dw.map (fun p => (p.1, p.2, rowsSum p.2)),
                summary := dw.map (fun p => (p.1, rowsSum p.2)),
                grandTotal := (dw.map (fun p => rowsSum p.2)).sum,
                userTotals := users.map (fun p => (p.1, p.2.total_eggs)) } s1

/-! ## Operation traces

The dispatcher delivers `/start` (reset only), group selections, and text
messages; a trace of these drives the reachable states. -/

/-- One dispatched operation, with the wall-clock readings it observes. -/
inductive Op where
  | resetOnly (month : String)
  | choice (group : String) (user_id : Nat)
  | record (user_id : Nat) (sessionGroup : Option String) (text : String)
      (month now : String)
deriving Repr, DecidableEq

/-- State left behind by one operation (for `record`, the state the globals
hold when the handler returns or the exception propagates). -/
def applyOp (s : BotState) : Op → BotState
  | .resetOnly m => reset_data_if_needed m s
  | .choice g u => group_choice g u s
  | .record u g t m n =>
      match count_eggs u g t m n s with
      | .noGroup s' => s'
      | .parseFailed s' => s'
      | .keyError s' => s'
      | .ok _ s' => s'

/-- Run a trace from a state. -/
def runOps (s : BotState) (ops : List Op) : BotState :=
  ops.foldl applyOp s

/-! ## Specification-side definitions

Declarative forms of the loops above, used to state what the handlers
compute. -/

/-- The rendered value of a read handler, when it neither prompted for a
group nor raised. -/
def ReadResult.val {α : Type} : ReadResult α → Option α
  | .ok v _ => some v
  | _ => none

/-- Today's entries of a user dict, account-major (dict iteration order),
log order within an account, tagged with their user id. -/
def todayEntries (today : String) : List (Nat × Account) → List (Nat × Entry)
  | [] => []
  | (u, a) :: rest =>
      (a.logs.filter (fun e => strStartsWith e.date today)).map (fun e => (u, e)) ++
      todayEntries today rest

/-- Render tagged entries as report lines with consecutive sequence numbers
starting at `n`. -/
def numberFrom (n : Nat) : List (Nat × Entry) → List ReportLine
  | [] => []
  | (u, e) :: rest => ⟨n, u, e.eggs, e.date⟩ :: numberFrom (n + 1) rest

/-- Quantity sum of tagged entries. -/
def entriesSum (l : List (Nat × Entry)) : Nat :=
  (l.map (fun p => p.2.eggs)).sum

/-- Append `d` unless already present — one step of first-occurrence
key order. -/
def insertNew (d : String) : List String → List String
  | [] => [d]
  | x :: xs => if x = d then x :: xs else x :: insertNew d xs

/-- The keys of a dict built by repeated insertion: each value in order of
its first occurrence. -/
def firstOccurrences (l : List String) : List String :=
  l.foldl (fun acc d => insertNew d acc) []

/-- Sum of the per-date totals of a datewise dict. -/
def dwTotal (dw : List (String × List Row)) : Nat :=
  (dw.map (fun p => rowsSum p.2)).sum

/-! ## Invariants -/

/-- `total == sum(e.quantity for e in log)` for one account. -/
def accountOk (a : Account) : Prop :=
  a.total_eggs = (a.logs.map Entry.eggs).sum

/-- Sum of the stored account totals within one group. -/
def usersSum (users : List (Nat × Account)) : Nat :=
  (users.map (fun p => p.2.total_eggs)).sum

/-- Sum of the stored account totals across all groups. -/
def grandSum (gd : List (String × List (Nat × Account))) : Nat :=
  (gd.map (fun p => usersSum p.2)).sum

/-- The sum-consistency invariant: every account's total matches its log, and
the global counter matches the sum of all account totals. -/
def stateOk (s : BotState) : Prop :=
  (∀ g users, (g, users) ∈ s.group_data →
    ∀ u a, (u, a) ∈ users → accountOk a) ∧
  s.total_eggs = grandSum s.group_data

/-! ## Dictionary lemmas -/

theorem dictLookup_updateAssoc_self {α β : Type} [DecidableEq α] (k : α)
    (f : β → β) : ∀ (l : List (α × β)) (v : β), dictLookup k l = some v →
    dictLookup k (updateAssoc k f l) = some (f v)
  | [], v, h => by simp [dictLookup] at h
  | (k', w) :: rest, v, h => by
      by_cases hk : k' = k
      · subst hk
        simp [dictLookup] at h
        simp [updateAssoc, dictLookup, h]
      · simp [dictLookup, hk] at h
        simp [updateAssoc, dictLookup, hk]
        exact dictLookup_updateAssoc_self k f rest v h

theorem dictLookup_updateAssoc_ne {α β : Type} [DecidableEq α] {k' k : α}
    (f : β → β) (h : k' ≠ k) : ∀ l : List (α × β),
    dictLookup k' (updateAssoc k f l) = dictLookup k' l
  | [] => rfl
  | (k₀, v) :: rest => by
      by_cases hk : k₀ = k
      · subst hk
        have : k₀ ≠ k' := fun he => h (he ▸ rfl)
        simp [updateAssoc, dictLookup, this]
      · simp only [updateAssoc, if_neg hk]
        by_cases hk' : k₀ = k'
        · simp [dictLookup, hk']
        · simp [dictLookup, hk']
          exact dictLookup_updateAssoc_ne f h rest

theorem updateAssoc_of_fix {α β : Type} [DecidableEq α] (k : α) (f : β → β) :
    ∀ (l : List (α × β)) (v : β), dictLookup k l = some v → f v = v →
    updateAssoc k f l = l
  | [], v, h, _ => by simp [dictLookup] at h
  | (k', w) :: rest, v, h, hv => by
      by_cases hk : k' = k
      · subst hk
        simp [dictLookup] at h
        simp [updateAssoc, h, hv]
      · simp [dictLookup, hk] at h
        simp [updateAssoc, hk]
        exact updateAssoc_of_fix k f rest v h hv

theorem insertIfAbsent_of_some {α β : Type} [DecidableEq α] {k : α}
    {l : List (α × β)} {v : β} (w : β) (h : dictLookup k l = some v) :
    insertIfAbsent k w l = l := by
  simp [insertIfAbsent, h]

theorem dictLookup_append_single {α β : Type} [DecidableEq α] (k : α)
    (v : β) : ∀ l : List (α × β), dictLookup k l = none →
    dictLookup k (l ++ [(k, v)]) = some v
  | [], _ => by simp [dictLookup]
  | (k', w) :: rest, h => by
      by_cases hk : k' = k
      · simp [dictLookup, hk] at h
      · simp [dictLookup, hk] at h ⊢
        exact dictLookup_append_single k v rest h

theorem dictLookup_insertIfAbsent_self {α β : Type} [DecidableEq α] (k : α)
    (v : β) (l : List (α × β)) (h : dictLookup k l = none) :
    dictLookup k (insertIfAbsent k v l) = some v := by
  unfold insertIfAbsent
  rw [h]
  exact dictLookup_append_single k v l h

theorem mem_updateAssoc {α β : Type} [DecidableEq α] (k : α) (f : β → β) :
    ∀ (l : List (α × β)) (p : α × β), p ∈ updateAssoc k f l →
    p ∈ l ∨ ∃ v, (p.1, v) ∈ l ∧ p.2 = f v
  | [], p, h => by simp [updateAssoc] at h
  | (k', w) :: rest, p, h => by
      by_cases hk : k' = k
      · subst hk
        simp only [updateAssoc, if_true, eq_self_iff_true, List.mem_cons,
          ite_true] at h
        rcases h with h1 | h1
        · right
          exact ⟨w, by simp [h1], by simp [h1]⟩
        · left
          exact List.mem_cons_of_mem _ h1
      · simp only [updateAssoc, if_neg hk, List.mem_cons] at h
        rcases h with h | h
        · left
          simp [h]
        · rcases mem_updateAssoc k f rest p h with h' | ⟨v, hv, hp⟩
          · left
            exact List.mem_cons_of_mem _ h'
          · right
            exact ⟨v, List.mem_cons_of_mem _ hv, hp⟩

theorem mem_insertIfAbsent {α β : Type} [DecidableEq α] (k : α) (v : β)
    (l : List (α × β)) (p : α × β) (h : p ∈ insertIfAbsent k v l) :
    p ∈ l ∨ p = (k, v) := by
  unfold insertIfAbsent at h
  cases hl : dictLookup k l with
  | some w => rw [hl] at h; exact Or.inl h
  | none =>
      rw [hl] at h
      rcases List.mem_append.mp h with h' | h'
      · exact Or.inl h'
      · simp at h'
        exact Or.inr (by simp [h'])

/-! ## Sum lemmas -/

theorem sum_map_updateAssoc {α β : Type} [DecidableEq α] (w : β → Nat)
    (k : α) (f : β → β) : ∀ (l : List (α × β)) (v : β),
    dictLookup k l = some v →
    ((updateAssoc k f l).map (fun p => w p.2)).sum + w v =
      (l.map (fun p => w p.2)).sum + w (f v)
  | [], v, h => by simp [dictLookup] at h
  | (k', u) :: rest, v, h => by
      by_cases hk : k' = k
      · subst hk
        simp [dictLookup] at h
        subst h
        simp [updateAssoc]
        omega
      · simp [dictLookup, hk] at h
        simp only [updateAssoc, if_neg hk, List.map_cons, List.sum_cons]
        have := sum_map_updateAssoc w k f rest v h
        omega

theorem sum_map_insertIfAbsent {α β : Type} [DecidableEq α] (w : β → Nat)
    (k : α) (v : β) (l : List (α × β)) (hv : w v = 0) :
    ((insertIfAbsent k v l).map (fun p => w p.2)).sum =
      (l.map (fun p => w p.2)).sum := by
  unfold insertIfAbsent
  cases hl : dictLookup k l with
  | some u => rfl
  | none => simp [hv]

theorem usersSum_updateAssoc (u : Nat) (f : Account → Account)
    (users : List (Nat × Account)) (a : Account)
    (hl : dictLookup u users = some a) :
    usersSum (updateAssoc u f users) + a.total_eggs =
      usersSum users + (f a).total_eggs := by
  have := sum_map_updateAssoc (fun x => x.total_eggs) u f users a hl
  simpa [usersSum] using this

theorem grandSum_updateAssoc (g : String)
    (h : List (Nat × Account) → List (Nat × Account))
    (gd : List (String × List (Nat × Account))) (us : List (Nat × Account))
    (hl : dictLookup g gd = some us) :
    grandSum (updateAssoc g h gd) + usersSum us =
      grandSum gd + usersSum (h us) := by
  have := sum_map_updateAssoc (fun users => usersSum users) g h gd us hl
  simpa [grandSum] using this

theorem usersSum_insertIfAbsent (u : Nat) (users : List (Nat × Account)) :
    usersSum (insertIfAbsent u ⟨0, []⟩ users) = usersSum users := by
  have := sum_map_insertIfAbsent (fun x : Account => x.total_eggs) u
    ⟨0, []⟩ users rfl
  simpa [usersSum] using this

theorem grandSum_insertIfAbsent (g : String)
    (gd : List (String × List (Nat × Account))) :
    grandSum (insertIfAbsent g [] gd) = grandSum gd := by
  have := sum_map_insertIfAbsent (fun users => usersSum users) g [] gd rfl
  simpa [grandSum] using this

/-! ## Preservation of the sum-consistency invariant -/

theorem accountOk_empty : accountOk ⟨0, []⟩ := by
  simp [accountOk]

theorem stateOk_emptyState (m : String) : stateOk (emptyState m) := by
  refine ⟨?_, ?_⟩ <;> simp [emptyState, stateOk, grandSum]

theorem stateOk_reset (m : String) (s : BotState) (h : stateOk s) :
    stateOk (reset_data_if_needed m s) := by
  unfold reset_data_if_needed
  by_cases hm : m ≠ s.last_reset_date
  · rw [if_pos hm]
    exact stateOk_emptyState m
  · rw [if_neg hm]
    exact h

theorem mem_updateAssoc_pair {α β : Type} [DecidableEq α] (k : α)
    (f : β → β) (l : List (α × β)) (a : α) (b : β)
    (h : (a, b) ∈ updateAssoc k f l) :
    (a, b) ∈ l ∨ ∃ v, (a, v) ∈ l ∧ b = f v :=
  mem_updateAssoc k f l (a, b) h

theorem mem_insertIfAbsent_pair {α β : Type} [DecidableEq α] (k : α) (v : β)
    (l : List (α × β)) (a : α) (b : β) (h : (a, b) ∈ insertIfAbsent k v l) :
    (a, b) ∈ l ∨ (a = k ∧ b = v) := by
  rcases mem_insertIfAbsent k v l (a, b) h with h1 | h1
  · exact Or.inl h1
  · simp only [Prod.mk.injEq] at h1
    exact Or.inr h1

theorem stateOk_group_choice (g : String) (u : Nat) (s : BotState)
    (h : stateOk s) : stateOk (group_choice g u s) := by
  obtain ⟨hacc, htot⟩ := h
  have hgc : group_choice g u s =
      { group_data := updateAssoc g (insertIfAbsent u ⟨0, []⟩)
          (insertIfAbsent g [] s.group_data),
        total_eggs := s.total_eggs,
        last_reset_date := s.last_reset_date } := rfl
  rw [hgc]
  refine ⟨?_, ?_⟩
  · intro g' users' hmem u' a' hmem'
    have hmem2 : (g', users') ∈ updateAssoc g (insertIfAbsent u ⟨0, []⟩)
        (insertIfAbsent g [] s.group_data) := hmem
    rcases mem_updateAssoc_pair _ _ _ _ _ hmem2 with h1 | ⟨us, hus, heq⟩
    · rcases mem_insertIfAbsent_pair _ _ _ _ _ h1 with h2 | ⟨_, h2⟩
      · exact hacc _ _ h2 _ _ hmem'
      · rw [h2] at hmem'
        simp at hmem'
    · rw [heq] at hmem'
      rcases mem_insertIfAbsent_pair _ _ _ _ _ hmem' with h3 | ⟨_, h3⟩
      · rcases mem_insertIfAbsent_pair _ _ _ _ _ hus with h4 | ⟨_, h4⟩
        · exact hacc _ _ h4 _ _ h3
        · rw [h4] at h3
          simp at h3
      · rw [h3]
        exact accountOk_empty
  · show s.total_eggs = grandSum (updateAssoc g (insertIfAbsent u ⟨0, []⟩)
      (insertIfAbsent g [] s.group_data))
    rw [htot]
    cases hl : dictLookup g s.group_data with
    | some us =>
        rw [insertIfAbsent_of_some [] hl]
        have h2 := grandSum_updateAssoc g (insertIfAbsent u ⟨0, []⟩)
          s.group_data us hl
        rw [usersSum_insertIfAbsent] at h2
        omega
    | none =>
        have e1 : dictLookup g (insertIfAbsent g [] s.group_data) = some [] :=
          dictLookup_insertIfAbsent_self g [] s.group_data hl
        have h2 := grandSum_updateAssoc g (insertIfAbsent u ⟨0, []⟩)
          (insertIfAbsent g [] s.group_data) [] e1
        rw [usersSum_insertIfAbsent] at h2
        rw [grandSum_insertIfAbsent] at h2
        simp [usersSum] at h2
        omega

theorem accountOk_addEntry (a : Account) (now : String) (eggs : Nat)
    (h : accountOk a) :
    accountOk { total_eggs := a.total_eggs + eggs,
                logs := a.logs ++ [⟨now, eggs⟩] } := by
  simp [accountOk] at h ⊢
  omega

theorem stateOk_record (u : Nat) (gq : Option String) (t m n : String)
    (s : BotState) (h : stateOk s) :
    stateOk (applyOp s (.record u gq t m n)) := by
  have hs1 := stateOk_reset m s h
  cases gq with
  | none => simpa [applyOp, count_eggs] using hs1
  | some g =>
      cases he : eggSearch t with
      | none => simpa [applyOp, count_eggs, he] using hs1
      | some eggs =>
          cases hl : dictLookup g (reset_data_if_needed m s).group_data with
          | none => simpa [applyOp, count_eggs, he, hl] using hs1
          | some users =>
              cases hu : dictLookup u users with
              | none => simpa [applyOp, count_eggs, he, hl, hu] using hs1
              | some a =>
                  have happ : applyOp s (.record u (some g) t m n) =
                      { group_data := updateAssoc g (updateAssoc u (fun a =>
                          { total_eggs := a.total_eggs + eggs,
                            logs := a.logs ++ [⟨n, eggs⟩] }))
                          (reset_data_if_needed m s).group_data,
                        total_eggs := (reset_data_if_needed m s).total_eggs + eggs,
                        last_reset_date :=
                          (reset_data_if_needed m s).last_reset_date } := by
                    simp [applyOp, count_eggs, he, hl, hu]
                  rw [happ]
                  obtain ⟨hacc, htot⟩ := hs1
                  refine ⟨?_, ?_⟩
                  · intro g' users' hmem u' a' hmem'
                    have hmem2 : (g', users') ∈ updateAssoc g
                        (updateAssoc u (fun a =>
                          { total_eggs := a.total_eggs + eggs,
                            logs := a.logs ++ [⟨n, eggs⟩] }))
                        (reset_data_if_needed m s).group_data := hmem
                    rcases mem_updateAssoc_pair _ _ _ _ _ hmem2 with
                      h1 | ⟨us, hus, heq⟩
                    · exact hacc _ _ h1 _ _ hmem'
                    · rw [heq] at hmem'
                      rcases mem_updateAssoc_pair _ _ _ _ _ hmem' with
                        h2 | ⟨a0, ha0, heq2⟩
                      · exact hacc _ _ hus _ _ h2
                      · rw [heq2]
                        exact accountOk_addEntry a0 n eggs
                          (hacc _ _ hus _ _ ha0)
                  · show (reset_data_if_needed m s).total_eggs + eggs =
                      grandSum (updateAssoc g (updateAssoc u (fun a =>
                        { total_eggs := a.total_eggs + eggs,
                          logs := a.logs ++ [⟨n, eggs⟩] }))
                        (reset_data_if_needed m s).group_data)
                    have h1 := usersSum_updateAssoc u (fun a =>
                      { total_eggs := a.total_eggs + eggs,
                        logs := a.logs ++ [⟨n, eggs⟩] }) users a hu
                    have h2 := grandSum_updateAssoc g (updateAssoc u (fun a =>
                      { total_eggs := a.total_eggs + eggs,
                        logs := a.logs ++ [⟨n, eggs⟩] }))
                      (reset_data_if_needed m s).group_data users hl
                    dsimp only at h1 h2
                    rw [htot]
                    omega

theorem stateOk_applyOp (s : BotState) (op : Op) (h : stateOk s) :
    stateOk (applyOp s op) := by
  cases op with
  | resetOnly m => exact stateOk_reset m s h
  | choice g u => exact stateOk_group_choice g u s h
  | record u gq t m n => exact stateOk_record u gq t m n s h

theorem stateOk_runOps : ∀ (ops : List Op) (s : BotState), stateOk s →
    stateOk (runOps s ops)
  | [], _, h => h
  | op :: rest, s, h =>
      stateOk_runOps rest (applyOp s op) (stateOk_applyOp s op h)

/-! ## Report loop characterization -/

theorem numberFrom_append (l1 : List (Nat × Entry)) :
    ∀ (n : Nat) (l2 : List (Nat × Entry)),
    numberFrom n (l1 ++ l2) = numberFrom n l1 ++ numberFrom (n + l1.length) l2 := by
  induction l1 with
  | nil => intro n l2; simp [numberFrom]
  | cons hd tl ih =>
      intro n l2
      obtain ⟨u, e⟩ := hd
      simp only [List.cons_append, numberFrom, List.append_eq,
        List.length_cons]
      rw [ih (n + 1)]
      have h2 : n + 1 + tl.length = n + (tl.length + 1) := by omega
      rw [h2]

theorem numberFrom_map_num (l : List (Nat × Entry)) :
    ∀ n : Nat, (numberFrom n l).map ReportLine.num = List.range' n l.length := by
  induction l with
  | nil => intro n; simp [numberFrom]
  | cons hd tl ih =>
      intro n
      obtain ⟨u, e⟩ := hd
      simp [numberFrom, List.range'_succ, ih (n + 1)]

theorem reportUser_spec (today : String) (uid : Nat) :
    ∀ (logs : List Entry) (lines : List ReportLine) (tot n : Nat),
    reportUser today uid logs (lines, tot, n) =
      (lines ++ numberFrom n
        ((logs.filter (fun e => strStartsWith e.date today)).map
          (fun e => (uid, e))),
       tot + ((logs.filter (fun e => strStartsWith e.date today)).map
          Entry.eggs).sum,
       n + (logs.filter (fun e => strStartsWith e.date today)).length) := by
  intro logs
  induction logs with
  | nil => intro lines tot n; simp [reportUser, numberFrom]
  | cons e rest ih =>
      intro lines tot n
      by_cases hd : strStartsWith e.date today
      · rw [reportUser, if_pos hd, ih]
        simp only [List.filter_cons, hd, if_true, List.map_cons,
          List.length_cons, List.sum_cons, numberFrom, Prod.mk.injEq]
        refine ⟨?_, ?_, ?_⟩
        · simp [List.append_assoc]
        · omega
        · omega
      · rw [reportUser, if_neg hd, ih]
        simp only [List.filter_cons, hd, if_false, Bool.false_eq_true]

theorem reportAll_spec (today : String) :
    ∀ (users : List (Nat × Account)) (lines : List ReportLine) (tot n : Nat),
    reportAll today users (lines, tot, n) =
      (lines ++ numberFrom n (todayEntries today users),
       tot + entriesSum (todayEntries today users),
       n + (todayEntries today users).length) := by
  intro users
  induction users with
  | nil =>
      intro lines tot n
      simp [reportAll, todayEntries, numberFrom, entriesSum]
  | cons hd rest ih =>
      intro lines tot n
      obtain ⟨u, a⟩ := hd
      rw [reportAll, reportUser_spec, ih]
      simp only [todayEntries, numberFrom_append, List.length_append,
        List.length_map, List.append_assoc, entriesSum, List.map_append,
        List.sum_append, List.map_map, Prod.mk.injEq]
      refine ⟨trivial, ?_, ?_⟩
      · have h1 : ((a.logs.filter (fun e => strStartsWith e.date today)).map
            Entry.eggs).sum =
            ((a.logs.filter (fun e => strStartsWith e.date today)).map
              ((fun p : Nat × Entry => p.2.eggs) ∘ fun e => (u, e))).sum := rfl
        omega
      · omega

/-! ## Export organization lemmas -/

theorem rowsSum_append (a b : List Row) :
    rowsSum (a ++ b) = rowsSum a + rowsSum b := by
  simp [rowsSum]

theorem dwTotal_addRow (d : String) (r : Row) :
    ∀ dw : List (String × List Row),
    dwTotal (addRow d r dw) = dwTotal dw + r.2.2
  | [] => by simp [addRow, dwTotal, rowsSum]
  | (d', rs) :: rest => by
      by_cases hd : d' = d
      · simp only [addRow, if_pos hd, dwTotal, List.map_cons, List.sum_cons,
          rowsSum_append]
        simp [rowsSum]
        omega
      · simp only [addRow, if_neg hd, dwTotal, List.map_cons, List.sum_cons]
        have := dwTotal_addRow d r rest
        simp only [dwTotal] at this
        omega

theorem dwTotal_buildDatewise (rows : List Row) :
    ∀ dw : List (String × List Row),
    dwTotal (buildDatewise rows dw) = dwTotal dw + rowsSum rows := by
  induction rows with
  | nil => intro dw; simp [buildDatewise, rowsSum]
  | cons r rest ih =>
      intro dw
      have hstep : buildDatewise (r :: rest) dw =
          buildDatewise rest (addRow (datePart r.2.1) r dw) := rfl
      rw [hstep, ih, dwTotal_addRow]
      simp [rowsSum]
      omega

theorem keys_addRow (d : String) (r : Row) :
    ∀ dw : List (String × List Row),
    (addRow d r dw).map Prod.fst = insertNew d (dw.map Prod.fst)
  | [] => by simp [addRow, insertNew]
  | (d', rs) :: rest => by
      by_cases hd : d' = d
      · simp [addRow, insertNew, hd]
      · simp only [addRow, if_neg hd, List.map_cons, insertNew, if_neg hd]
        rw [keys_addRow d r rest]

theorem keys_buildDatewise (rows : List Row) :
    ∀ dw : List (String × List Row),
    (buildDatewise rows dw).map Prod.fst =
      rows.foldl (fun acc r => insertNew (datePart r.2.1) acc)
        (dw.map Prod.fst) := by
  induction rows with
  | nil => intro dw; simp [buildDatewise]
  | cons r rest ih =>
      intro dw
      have hstep : buildDatewise (r :: rest) dw =
          buildDatewise rest (addRow (datePart r.2.1) r dw) := rfl
      rw [hstep, ih, keys_addRow]
      rfl

theorem keys_buildDatewise_firstOccurrences (rows : List Row) :
    (buildDatewise rows []).map Prod.fst =
      firstOccurrences (rows.map (fun r => datePart r.2.1)) := by
  rw [keys_buildDatewise]
  simp [firstOccurrences, List.foldl_map]

theorem dictLookup_append_single_ne {α β : Type} [DecidableEq α] {k' k : α}
    (v : β) (h : k' ≠ k) : ∀ l : List (α × β),
    dictLookup k' (l ++ [(k, v)]) = dictLookup k' l
  | [] => by simp [dictLookup, Ne.symm h]
  | (a, b) :: rest => by
      by_cases ha : a = k'
      · simp [dictLookup, ha]
      · simp [dictLookup, ha]
        exact dictLookup_append_single_ne v h rest

theorem dictLookup_insertIfAbsent_ne {α β : Type} [DecidableEq α] {k' k : α}
    (v : β) (l : List (α × β)) (h : k' ≠ k) :
    dictLookup k' (insertIfAbsent k v l) = dictLookup k' l := by
  unfold insertIfAbsent
  cases hl : dictLookup k l with
  | some w => rfl
  | none => exact dictLookup_append_single_ne v h l

/-! ## Claims -/

/-- C1: after any sequence of operations (group selections, recorded
messages — successful or not — and reset checks) starting from the initial
empty state, every account's stored total equals the sum of the quantities in
its log, and the global `total_eggs` equals the sum of all accounts' totals
across all groups. -/
theorem c1_sum_consistency (m : String) (ops : List Op) :
    stateOk (runOps (emptyState m) ops) :=
  stateOk_runOps ops (emptyState m) (stateOk_emptyState m)

/-- C2: `reset_data_if_needed` clears all accounts, logs and the grand total
and adopts the new period key exactly when the current key differs from the
stored one (in one shot, regardless of how many periods elapsed), is the
identity when the key is unchanged, and a second call in the same period is a
no-op. -/
theorem c2_reconcile (s : BotState) (m : String) :
    (m ≠ s.last_reset_date → reset_data_if_needed m s = emptyState m) ∧
    (m = s.last_reset_date → reset_data_if_needed m s = s) ∧
    reset_data_if_needed m (reset_data_if_needed m s) =
      reset_data_if_needed m s := by
  unfold reset_data_if_needed
  by_cases hm : m = s.last_reset_date
  · simp [hm]
  · simp [hm, emptyState]

/-- C2 witness: both branches of `c2_reconcile` at a concrete nonempty
state. -/
theorem c2_reconcile_witness :
    reset_data_if_needed "2024-02"
      ⟨[("G", [(1, ⟨5, [⟨"2024-01-10 08:00:00", 5⟩]⟩)])], 5, "2024-01"⟩ =
      emptyState "2024-02" ∧
    reset_data_if_needed "2024-01"
      ⟨[("G", [(1, ⟨5, [⟨"2024-01-10 08:00:00", 5⟩]⟩)])], 5, "2024-01"⟩ =
      ⟨[("G", [(1, ⟨5, [⟨"2024-01-10 08:00:00", 5⟩]⟩)])], 5, "2024-01"⟩ :=
  ⟨(c2_reconcile _ "2024-02").1 (by decide),
   (c2_reconcile _ "2024-01").2.1 (by decide)⟩

/-- C4: the code, not the claim, is at fault — after a month rollover the
session still holds the selected group but `group_data` has been cleared, so
the very next `count_eggs` raises an uncaught `KeyError` at
`group_data[group][user_id]` instead of lazily creating the account. -/
theorem c4_keyerror_after_rollover :
    count_eggs 1 (some "G") "5 butir" "2024-02" "2024-02-01 08:00:00"
      (runOps (emptyState "2024-01")
        [Op.choice "G" 1,
         Op.record 1 (some "G") "5 butir" "2024-01" "2024-01-10 08:00:00"]) =
    .keyError (emptyState "2024-02") := by decide

/-- C8: the quantity parser returns the integer value of the first digit run
followed (possibly after whitespace) by the unit keyword case-insensitively,
returns no match otherwise, and a parsed quantity of 0 is accepted by
`count_eggs` as a real entry. -/
theorem c8_parser_examples :
    eggSearch "1500 butir" = some 1500 ∧
    eggSearch "no numbers here" = none ∧
    eggSearch "abc 200 butir def 300 butir" = some 200 ∧
    eggSearch "0 BUTIR" = some 0 ∧
    count_eggs 1 (some "G") "0 butir" "2024-01" "2024-01-10 08:00:00"
      (group_choice "G" 1 (emptyState "2024-01")) =
      .ok 0 { group_data := [("G", [(1, ⟨0, [⟨"2024-01-10 08:00:00", 0⟩]⟩)])],
              total_eggs := 0, last_reset_date := "2024-01" } := by decide

/-- C9 counterexample: on unparseable text `count_eggs` still runs the period
reset first, so when the month has changed the state is not left unchanged —
here the grand total drops from 5 to 0 and the account disappears. -/
theorem c9_counterexample :
    count_eggs 1 (some "G") "hello" "2024-02" "2024-02-01 08:00:00"
      (runOps (emptyState "2024-01")
        [Op.choice "G" 1,
         Op.record 1 (some "G") "5 butir" "2024-01" "2024-01-10 08:00:00"]) =
      .parseFailed (emptyState "2024-02") ∧
    (runOps (emptyState "2024-01")
        [Op.choice "G" 1,
         Op.record 1 (some "G") "5 butir" "2024-01" "2024-01-10 08:00:00"]).total_eggs
      = 5 ∧
    (emptyState "2024-02").total_eggs = 0 := by decide

/-- C9 (amended): when the parser finds no match, `count_eggs` classifies the
call as a parse failure and performs no mutation beyond the mandatory period
reconcile — the resulting state is exactly `reset_data_if_needed`'s output,
and in particular the state is entirely unchanged whenever the period key is
current. -/
theorem c9_parse_failure_no_mutation (u : Nat) (g text m now : String)
    (s : BotState) (h : eggSearch text = none) :
    count_eggs u (some g) text m now s =
      .parseFailed (reset_data_if_needed m s) ∧
    (m = s.last_reset_date →
      count_eggs u (some g) text m now s = .parseFailed s) := by
  constructor
  · simp only [count_eggs, h]
  · intro hm
    simp only [count_eggs, h, reset_data_if_needed, hm, ne_eq,
      not_true_eq_false, if_false, ite_false]

/-- C9 witness: `c9_parse_failure_no_mutation` at a concrete in-period state;
the state is returned untouched. -/
theorem c9_parse_failure_no_mutation_witness :
    count_eggs 1 (some "G") "hello" "2024-01" "2024-01-10 09:00:00"
      ⟨[("G", [(1, ⟨5, [⟨"2024-01-10 08:00:00", 5⟩]⟩)])], 5, "2024-01"⟩ =
    .parseFailed
      ⟨[("G", [(1, ⟨5, [⟨"2024-01-10 08:00:00", 5⟩]⟩)])], 5, "2024-01"⟩ :=
  (c9_parse_failure_no_mutation 1 "G" "hello" "2024-01" "2024-01-10 09:00:00"
    ⟨[("G", [(1, ⟨5, [⟨"2024-01-10 08:00:00", 5⟩]⟩)])], 5, "2024-01"⟩
    (by decide)).2 rfl

/-- C10: re-running `group_choice` for a (group, user) pair that already has
an account is a complete no-op on the store; in every case the grand total
and period key are untouched and other groups are unaffected; a previously
absent group or user entry is initialized to an empty account with total 0,
appended in insertion order. -/
theorem c10_group_choice_frame (g : String) (u : Nat) (s : BotState) :
    (∀ users a, dictLookup g s.group_data = some users →
       dictLookup u users = some a → group_choice g u s = s) ∧
    (group_choice g u s).total_eggs = s.total_eggs ∧
    (group_choice g u s).last_reset_date = s.last_reset_date ∧
    (∀ g', g' ≠ g → dictLookup g' (group_choice g u s).group_data =
       dictLookup g' s.group_data) ∧
    (dictLookup g s.group_data = none →
       dictLookup g (group_choice g u s).group_data = some [(u, ⟨0, []⟩)]) ∧
    (∀ users, dictLookup g s.group_data = some users →
       dictLookup u users = none →
       dictLookup g (group_choice g u s).group_data =
         some (users ++ [(u, ⟨0, []⟩)])) := by
  refine ⟨?_, rfl, rfl, ?_, ?_, ?_⟩
  · intro users a h1 h2
    have e1 : insertIfAbsent g ([] : List (Nat × Account)) s.group_data =
        s.group_data := insertIfAbsent_of_some [] h1
    have e2 : insertIfAbsent u (⟨0, []⟩ : Account) users = users :=
      insertIfAbsent_of_some _ h2
    have e3 : updateAssoc g (insertIfAbsent u (⟨0, []⟩ : Account))
        s.group_data = s.group_data :=
      updateAssoc_of_fix g _ s.group_data users h1 e2
    show BotState.mk (updateAssoc g (insertIfAbsent u ⟨0, []⟩)
        (insertIfAbsent g [] s.group_data)) s.total_eggs s.last_reset_date = s
    rw [e1, e3]
  · intro g' hg
    show dictLookup g' (updateAssoc g (insertIfAbsent u ⟨0, []⟩)
        (insertIfAbsent g [] s.group_data)) = dictLookup g' s.group_data
    rw [dictLookup_updateAssoc_ne _ hg, dictLookup_insertIfAbsent_ne _ _ hg]
  · intro h1
    have e1 : dictLookup g (insertIfAbsent g ([] : List (Nat × Account))
        s.group_data) = some [] :=
      dictLookup_insertIfAbsent_self g [] s.group_data h1
    show dictLookup g (updateAssoc g (insertIfAbsent u ⟨0, []⟩)
        (insertIfAbsent g [] s.group_data)) = some [(u, ⟨0, []⟩)]
    rw [dictLookup_updateAssoc_self g _ _ [] e1]
    rfl
  · intro users h1 h2
    have e1 : insertIfAbsent g ([] : List (Nat × Account)) s.group_data =
        s.group_data := insertIfAbsent_of_some [] h1
    show dictLookup g (updateAssoc g (insertIfAbsent u ⟨0, []⟩)
        (insertIfAbsent g [] s.group_data)) = some (users ++ [(u, ⟨0, []⟩)])
    rw [e1, dictLookup_updateAssoc_self g _ _ users h1]
    unfold insertIfAbsent
    rw [h2]

/-- C10 witness: `c10_group_choice_frame` at a concrete state: duplicate
selection is a no-op, a selection by a new user appends an empty account. -/
theorem c10_group_choice_frame_witness :
    group_choice "G" 1
      ⟨[("G", [(1, ⟨5, [⟨"2024-01-10 08:00:00", 5⟩]⟩)])], 5, "2024-01"⟩ =
      ⟨[("G", [(1, ⟨5, [⟨"2024-01-10 08:00:00", 5⟩]⟩)])], 5, "2024-01"⟩ ∧
    dictLookup "G" (group_choice "G" 2
      ⟨[("G", [(1, ⟨5, [⟨"2024-01-10 08:00:00", 5⟩]⟩)])], 5,
        "2024-01"⟩).group_data =
      some [(1, ⟨5, [⟨"2024-01-10 08:00:00", 5⟩]⟩), (2, ⟨0, []⟩)] :=
  ⟨(c10_group_choice_frame "G" 1 _).1 _ _ rfl rfl,
   (c10_group_choice_frame "G" 2
     ⟨[("G", [(1, ⟨5, [⟨"2024-01-10 08:00:00", 5⟩]⟩)])], 5,
       "2024-01"⟩).2.2.2.2.2 _ rfl rfl⟩

/-- C7: `report` renders exactly the accounts' today-entries in account
iteration order (insertion order of first-seen user) and log order within an
account, numbered 1-based in the overall output order, with a trailing total
equal to the filtered quantity sum; the output is a function of the store
state alone, hence deterministic. -/
theorem c7_report_numbering (group month today : String) (s : BotState)
    (users : List (Nat × Account))
    (h : dictLookup group (reset_data_if_needed month s).group_data =
      some users) :
    report (some group) month today s =
      .ok (numberFrom 1 (todayEntries today users),
           entriesSum (todayEntries today users))
          (reset_data_if_needed month s) ∧
    (numberFrom 1 (todayEntries today users)).map ReportLine.num =
      List.range' 1 (todayEntries today users).length := by
  constructor
  · simp only [report, h]
    rw [reportAll_spec]
    simp
  · exact numberFrom_map_num _ 1

/-- C7 witness: `c7_report_numbering` on a concrete two-account store. -/
theorem c7_report_numbering_witness :
    report (some "G") "2024-01" "2024-01-10"
      ⟨[("G", [(1, ⟨40, [⟨"2024-01-10 08:00:00", 10⟩,
                         ⟨"2024-01-10 10:00:00", 30⟩]⟩),
               (2, ⟨20, [⟨"2024-01-10 09:00:00", 20⟩]⟩)])], 60, "2024-01"⟩ =
      .ok (numberFrom 1 (todayEntries "2024-01-10"
             [(1, ⟨40, [⟨"2024-01-10 08:00:00", 10⟩,
                        ⟨"2024-01-10 10:00:00", 30⟩]⟩),
              (2, ⟨20, [⟨"2024-01-10 09:00:00", 20⟩]⟩)]),
           entriesSum (todayEntries "2024-01-10"
             [(1, ⟨40, [⟨"2024-01-10 08:00:00", 10⟩,
                        ⟨"2024-01-10 10:00:00", 30⟩]⟩),
              (2, ⟨20, [⟨"2024-01-10 09:00:00", 20⟩]⟩)]))
          (reset_data_if_needed "2024-01"
            ⟨[("G", [(1, ⟨40, [⟨"2024-01-10 08:00:00", 10⟩,
                               ⟨"2024-01-10 10:00:00", 30⟩]⟩),
                     (2, ⟨20, [⟨"2024-01-10 09:00:00", 20⟩]⟩)])], 60,
              "2024-01"⟩) :=
  (c7_report_numbering "G" "2024-01" "2024-01-10" _ _ (by decide)).1

/-- C5 counterexample: entries recorded in arrival order A, B, A are reported
grouped by account — user order 1, 1, 2 — not in the claimed interleaved
arrival order 1, 2, 1 (the trailing total 60 is as claimed). -/
theorem c5_counterexample :
    ((report (some "G") "2024-01" "2024-01-10" (runOps (emptyState "2024-01")
      [Op.choice "G" 1, Op.choice "G" 2,
       Op.record 1 (some "G") "10 butir" "2024-01" "2024-01-10 08:00:00",
       Op.record 2 (some "G") "20 butir" "2024-01" "2024-01-10 09:00:00",
       Op.record 1 (some "G") "30 butir" "2024-01" "2024-01-10 10:00:00"])).val.map
        (fun r => r.1.map ReportLine.uid)) = some [1, 1, 2] ∧
    ((report (some "G") "2024-01" "2024-01-10" (runOps (emptyState "2024-01")
      [Op.choice "G" 1, Op.choice "G" 2,
       Op.record 1 (some "G") "10 butir" "2024-01" "2024-01-10 08:00:00",
       Op.record 2 (some "G") "20 butir" "2024-01" "2024-01-10 09:00:00",
       Op.record 1 (some "G") "30 butir" "2024-01" "2024-01-10 10:00:00"])).val.map
        (fun r => r.1.map ReportLine.uid)) ≠ some [1, 2, 1] ∧
    ((report (some "G") "2024-01" "2024-01-10" (runOps (emptyState "2024-01")
      [Op.choice "G" 1, Op.choice "G" 2,
       Op.record 1 (some "G") "10 butir" "2024-01" "2024-01-10 08:00:00",
       Op.record 2 (some "G") "20 butir" "2024-01" "2024-01-10 09:00:00",
       Op.record 1 (some "G") "30 butir" "2024-01" "2024-01-10 10:00:00"])).val.map
        (fun r => r.2)) = some 60 := by decide

/-- C5 (amended): for entries by users A (2 entries today) and B (1 entry)
recorded in arrival order A, B, A, `report` yields exactly 3 lines numbered
1-3 in account-major order — A's two entries first, then B's — with a
trailing total equal to the sum of the three quantities. -/
theorem c5_report_account_major (g : String) (uA uB : Nat) (hAB : uA ≠ uB)
    (m today tA1 tB tA2 xA1 xB xA2 : String) (qA1 qB qA2 : Nat)
    (hx1 : eggSearch xA1 = some qA1) (hx2 : eggSearch xB = some qB)
    (hx3 : eggSearch xA2 = some qA2)
    (ht1 : strStartsWith tA1 today = true)
    (ht2 : strStartsWith tB today = true)
    (ht3 : strStartsWith tA2 today = true) :
    (report (some g) m today (runOps (emptyState m)
      [Op.choice g uA, Op.choice g uB,
       Op.record uA (some g) xA1 m tA1,
       Op.record uB (some g) xB m tB,
       Op.record uA (some g) xA2 m tA2])).val =
    some ([⟨1, uA, qA1, tA1⟩, ⟨2, uA, qA2, tA2⟩, ⟨3, uB, qB, tB⟩],
          qA1 + qA2 + qB) := by
  have hstate : runOps (emptyState m)
      [Op.choice g uA, Op.choice g uB,
       Op.record uA (some g) xA1 m tA1,
       Op.record uB (some g) xB m tB,
       Op.record uA (some g) xA2 m tA2] =
      ⟨[(g, [(uA, ⟨qA1 + qA2, [⟨tA1, qA1⟩, ⟨tA2, qA2⟩]⟩),
             (uB, ⟨qB, [⟨tB, qB⟩]⟩)])], qA1 + qB + qA2, m⟩ := by
    simp [runOps, applyOp, group_choice, count_eggs, reset_data_if_needed,
      emptyState, insertIfAbsent, updateAssoc, dictLookup, hx1, hx2, hx3,
      hAB, Ne.symm hAB]
  rw [hstate]
  have hres : reset_data_if_needed m
      (⟨[(g, [(uA, ⟨qA1 + qA2, [⟨tA1, qA1⟩, ⟨tA2, qA2⟩]⟩),
              (uB, ⟨qB, [⟨tB, qB⟩]⟩)])], qA1 + qB + qA2, m⟩ : BotState) =
      ⟨[(g, [(uA, ⟨qA1 + qA2, [⟨tA1, qA1⟩, ⟨tA2, qA2⟩]⟩),
             (uB, ⟨qB, [⟨tB, qB⟩]⟩)])], qA1 + qB + qA2, m⟩ := by
    simp [reset_data_if_needed]
  simp only [report, hres, dictLookup, if_true, eq_self_iff_true, ite_true]
  rw [reportAll_spec]
  simp only [todayEntries, List.filter, ht1, ht2, ht3, List.map_cons,
    List.map_nil, List.nil_append, List.cons_append, List.append_nil,
    numberFrom, entriesSum, List.sum_cons, List.sum_nil, ReadResult.val,
    Option.some.injEq, Prod.mk.injEq]
  refine ⟨trivial, ?_⟩
  omega

/-- C5 witness: `c5_report_account_major` at concrete users, texts and
timestamps. -/
theorem c5_report_account_major_witness :
    (report (some "G") "2024-01" "2024-01-10" (runOps (emptyState "2024-01")
      [Op.choice "G" 1, Op.choice "G" 2,
       Op.record 1 (some "G") "10 butir" "2024-01" "2024-01-10 08:00:00",
       Op.record 2 (some "G") "20 butir" "2024-01" "2024-01-10 09:00:00",
       Op.record 1 (some "G") "30 butir" "2024-01" "2024-01-10 10:00:00"])).val =
    some ([⟨1, 1, 10, "2024-01-10 08:00:00"⟩,
           ⟨2, 1, 30, "2024-01-10 10:00:00"⟩,
           ⟨3, 2, 20, "2024-01-10 09:00:00"⟩], 10 + 30 + 20) :=
  c5_report_account_major "G" 1 2 (by decide) "2024-01" "2024-01-10"
    "2024-01-10 08:00:00" "2024-01-10 09:00:00" "2024-01-10 10:00:00"
    "10 butir" "20 butir" "30 butir" 10 20 30
    (by decide) (by decide) (by decide) (by decide) (by decide) (by decide)

/-- C3 counterexample: with entries in two groups, the export of group "G1"
has Grand Total 5 while the process-wide `total_eggs` is 12 — the exported
grand total is group-scoped, not process-wide. -/
theorem c3_counterexample :
    ((exportReport (some "G1") "2024-01" (runOps (emptyState "2024-01")
      [Op.choice "G1" 1,
       Op.record 1 (some "G1") "5 butir" "2024-01" "2024-01-10 08:00:00",
       Op.choice "G2" 2,
       Op.record 2 (some "G2") "7 butir" "2024-01" "2024-01-10 09:00:00"])).val.map
        ExportDoc.grandTotal) = some 5 ∧
    (runOps (emptyState "2024-01")
      [Op.choice "G1" 1,
       Op.record 1 (some "G1") "5 butir" "2024-01" "2024-01-10 08:00:00",
       Op.choice "G2" 2,
       Op.record 2 (some "G2") "7 butir" "2024-01"
         "2024-01-10 09:00:00"]).total_eggs = 12 := by decide

/-- C3 (amended): the "Grand Total" row of the summary sheet equals the sum
of the per-date totals listed on that sheet, and equals the total quantity of
all entries of the selected group's accounts (which coincides with the
process-wide grand total only when every live entry belongs to that
group). -/
theorem c3_grand_total_group_scoped (group month : String) (s : BotState)
    (users : List (Nat × Account))
    (h : dictLookup group (reset_data_if_needed month s).group_data =
      some users) :
    ∃ doc : ExportDoc,
      exportReport (some group) month s =
        .ok doc (reset_data_if_needed month s) ∧
      doc.grandTotal = (doc.summary.map Prod.snd).sum ∧
      doc.grandTotal = rowsSum (allRows users) := by
  have hexp : exportReport (some group) month s =
      .ok { dateSheets := (buildDatewise (allRows users) []).map (fun p => (p.1, p.2, rowsSum p.2)),
            summary := (buildDatewise (allRows users) []).map (fun p => (p.1, rowsSum p.2)),
            grandTotal := ((buildDatewise (allRows users) []).map (fun p => rowsSum p.2)).sum,
            userTotals := users.map (fun p => (p.1, p.2.total_eggs)) }
        (reset_data_if_needed month s) := by
    simp only [exportReport, h]
  refine ⟨_, hexp, ?_, ?_⟩
  · show ((buildDatewise (allRows users) []).map (fun p => rowsSum p.2)).sum =
      (((buildDatewise (allRows users) []).map (fun p => (p.1, rowsSum p.2))).map Prod.snd).sum
    rw [List.map_map]
    rfl
  · show ((buildDatewise (allRows users) []).map
        (fun p => rowsSum p.2)).sum = rowsSum (allRows users)
    have := dwTotal_buildDatewise (allRows users) []
    simpa [dwTotal] using this

/-- C3 witness: `c3_grand_total_group_scoped` on a concrete store. -/
theorem c3_grand_total_group_scoped_witness :
    ∃ doc : ExportDoc,
      exportReport (some "G") "2024-01"
        ⟨[("G", [(1, ⟨5, [⟨"2024-01-10 08:00:00", 5⟩]⟩)])], 5, "2024-01"⟩ =
        .ok doc (reset_data_if_needed "2024-01"
          ⟨[("G", [(1, ⟨5, [⟨"2024-01-10 08:00:00", 5⟩]⟩)])], 5,
            "2024-01"⟩) ∧
      doc.grandTotal = (doc.summary.map Prod.snd).sum ∧
      doc.grandTotal =
        rowsSum (allRows [(1, ⟨5, [⟨"2024-01-10 08:00:00", 5⟩]⟩)]) :=
  c3_grand_total_group_scoped "G" "2024-01" _ _ (by decide)

/-- C6 counterexample: a reachable store whose export emits the sheet for
2024-01-02 before the sheet for the calendar-earlier 2024-01-01 — sheets
follow first-encounter order under account-major iteration, not ascending
date order. -/
theorem c6_counterexample :
    ((exportReport (some "G") "2024-01" (runOps (emptyState "2024-01")
      [Op.choice "G" 1, Op.choice "G" 2,
       Op.record 2 (some "G") "20 butir" "2024-01" "2024-01-01 09:00:00",
       Op.record 1 (some "G") "10 butir" "2024-01" "2024-01-02 08:00:00"])).val.map
        (fun d => d.dateSheets.map Prod.fst)) =
      some ["2024-01-02", "2024-01-01"] ∧
    ("2024-01-01".toList < "2024-01-02".toList) := by decide

/-- C6 (amended): `exportReport` emits one sheet per date in the order the
dates are first encountered while iterating accounts in insertion order and
logs in order (not sorted by calendar date), and every sheet's trailing
synthetic "Total" row equals that sheet's quantity sum. -/
theorem c6_sheet_order_first_encounter (group month : String) (s : BotState)
    (users : List (Nat × Account))
    (h : dictLookup group (reset_data_if_needed month s).group_data =
      some users) :
    ∃ doc : ExportDoc,
      exportReport (some group) month s =
        .ok doc (reset_data_if_needed month s) ∧
      doc.dateSheets.map Prod.fst =
        firstOccurrences ((allRows users).map (fun r => datePart r.2.1)) ∧
      ∀ p ∈ doc.dateSheets, p.2.2 = rowsSum p.2.1 := by
  have hexp : exportReport (some group) month s =
      .ok { dateSheets := (buildDatewise (allRows users) []).map (fun p => (p.1, p.2, rowsSum p.2)),
            summary := (buildDatewise (allRows users) []).map (fun p => (p.1, rowsSum p.2)),
            grandTotal := ((buildDatewise (allRows users) []).map (fun p => rowsSum p.2)).sum,
            userTotals := users.map (fun p => (p.1, p.2.total_eggs)) }
        (reset_data_if_needed month s) := by
    simp only [exportReport, h]
  refine ⟨_, hexp, ?_, ?_⟩
  · show ((buildDatewise (allRows users) []).map
        (fun p => (p.1, p.2, rowsSum p.2))).map Prod.fst = _
    rw [List.map_map]
    have hc : (Prod.fst ∘ fun p : String × List Row =>
        (p.1, p.2, rowsSum p.2)) = Prod.fst := rfl
    rw [hc]
    exact keys_buildDatewise_firstOccurrences (allRows users)
  · intro p hp
    simp only [List.mem_map] at hp
    obtain ⟨q, _, hq⟩ := hp
    rw [← hq]

/-- C6 witness: `c6_sheet_order_first_encounter` on a concrete store. -/
theorem c6_sheet_order_first_encounter_witness :
    ∃ doc : ExportDoc,
      exportReport (some "G") "2024-01"
        ⟨[("G", [(1, ⟨10, [⟨"2024-01-02 08:00:00", 10⟩]⟩),
                 (2, ⟨20, [⟨"2024-01-01 09:00:00", 20⟩]⟩)])], 30,
          "2024-01"⟩ =
        .ok doc (reset_data_if_needed "2024-01"
          ⟨[("G", [(1, ⟨10, [⟨"2024-01-02 08:00:00", 10⟩]⟩),
                   (2, ⟨20, [⟨"2024-01-01 09:00:00", 20⟩]⟩)])], 30,
            "2024-01"⟩) ∧
      doc.dateSheets.map Prod.fst =
        firstOccurrences ((allRows
          [(1, ⟨10, [⟨"2024-01-02 08:00:00", 10⟩]⟩),
           (2, ⟨20, [⟨"2024-01-01 09:00:00", 20⟩]⟩)]).map
            (fun r => datePart r.2.1)) ∧
      ∀ p ∈ doc.dateSheets, p.2.2 = rowsSum p.2.1 :=
  c6_sheet_order_first_encounter "G" "2024-01" _ _ (by decide)

end EggBot
